import Mathlib

/-!
Verification development for the vibegrapher backend.

We give a shallow embedding, in Lean, of the patch-workflow core of the
repository and prove properties about it:

* `app/utils/diff_parser.py` — `DiffParser.parse_hunks`, `DiffParser.apply_patch`,
  `DiffParser.apply_simple_patch`;
* `app/agents/all_agents.py` — `validate_patch`, the stream-event loop of
  `VibecodeService.vibecode`, `_create_message_from_event`,
  `_save_conversation_message_async`;
* `app/services/vibecode_service.py` — `VibecodeService.vibecode`,
  `_stream_agent_response`;
* `app/api/diffs.py` — `review_diff`, `commit_diff`;
* `app/api/sessions.py` — the user-message deduplication of `send_message`;
* `app/services/git_service.py` — `get_head_commit`, `commit_changes`.

Python strings are modelled as Lean `String`s operated on through their
character lists; Python lists as Lean `List`s; `None`-returning failure and
raised exceptions as `Option`/`Except`.  External collaborators (the OpenAI
agents, `ast.parse`, the Socket.io bus, filesystem/pygit2 failures) enter as
explicit function parameters or state, never as stubs of repository code.
-/

deriving instance DecidableEq for Except

namespace Vibegrapher

/-! ## Python string primitives -/

/-- Python `s.split('\n')` (`str.split` with an explicit separator): modelled by
`List.splitOn` on the character list.  Like Python, `"".split('\n') = [""]` and a
trailing separator yields a trailing empty chunk. -/
def splitLines (s : String) : List String :=
  (s.toList.splitOn '\n').map String.mk

/-- Python `'\n'.join(lines)`. -/
def joinLines (ls : List String) : String :=
  String.mk (List.intercalate ['\n'] (ls.map String.toList))

/-- Python `s.strip()`: remove leading and trailing whitespace.
`Char.isWhitespace` covers the whitespace characters that occur in this code
base (space, tab, CR, LF). -/
def pyStrip (s : String) : String :=
  String.mk (((s.toList.dropWhile Char.isWhitespace).reverse.dropWhile
    Char.isWhitespace).reverse)

/-- Python `s.startswith(pre)`. -/
def pyStartswith (s pre : String) : Bool :=
  pre.toList.isPrefixOf s.toList

/-- Python `s[1:]` (strings in this code base are ASCII, so character slicing
and byte slicing agree). -/
def pyTail (s : String) : String :=
  String.mk (s.toList.drop 1)

/-- Python `list.insert(i, a)`: a negative index counts from the end and is
clamped at 0; an index past the end appends.  `List.take`/`List.drop` clamp at
the list length, which matches Python's clamping. -/
def pyInsert (i : Int) (a : α) (l : List α) : List α :=
  let j : Nat := if i < 0 then (i + l.length).toNat else i.toNat
  l.take j ++ [a] ++ l.drop j

/-- Python `list.pop(i)`: a negative index counts from the end; an index out of
range after that adjustment raises `IndexError`, modelled as `none`. -/
def pyPop (i : Int) (l : List α) : Option (List α) :=
  let j : Int := if i < 0 then i + l.length else i
  if 0 ≤ j ∧ j < (l.length : Int) then
    some (l.take j.toNat ++ l.drop (j.toNat + 1))
  else
    none

/-- Python `a or b` for `a : Optional[str]`: `None` and the empty string are
falsy. -/
def pyOrStr (a : Option String) (b : String) : String :=
  match a with
  | some s => if s = "" then b else s
  | none => b

/-- Python `repr`-style rendering of an `Optional[str]` inside an f-string:
`None` prints as `"None"`, a string prints as itself. -/
def pyStrOpt : Option String → String
  | none => "None"
  | some s => s

/-! ## `DiffParser.parse_hunks` (`app/utils/diff_parser.py`, lines 16-51)

The hunk-header regex is `@@ -(\d+)(?:,(\d+))? \+(\d+)(?:,(\d+))? @@`, used via
`re.match`, i.e. anchored at the start of the line only; text after the trailing
`@@` is ignored.  The optional groups require a comma followed by at least one
digit; since the regex tokens after each `\d+` are non-digits, greedy matching
is deterministic and the parser below computes exactly the regex's behaviour.
`\d` is modelled as an ASCII digit. -/

/-- Numeric value of a digit string, as Python `int()` on a `\d+` match. -/
def natOfDigits (ds : List Char) : Nat :=
  ds.foldl (fun a c => 10 * a + (c.toNat - 48)) 0

/-- Consume a maximal nonempty run of digits (`\d+`). -/
def readDigits (cs : List Char) : Option (Nat × List Char) :=
  let ds := cs.takeWhile Char.isDigit
  if ds = [] then none
  else some (natOfDigits ds, cs.dropWhile Char.isDigit)

/-- Consume the optional group `(?:,(\d+))?`: if a comma followed by a digit run
is present it is consumed, otherwise the position is unchanged and the group is
absent. -/
def readOptCount (cs : List Char) : Option Nat × List Char :=
  match cs with
  | ',' :: rest =>
    match readDigits rest with
    | some (n, rest') => (some n, rest')
    | none => (none, ',' :: rest)
  | _ => (none, cs)

/-- `re.match(r'@@ -(\d+)(?:,(\d+))? \+(\d+)(?:,(\d+))? @@', line)`, returning
the four captured groups `(old_start, old_count?, new_start, new_count?)`. -/
def parseHunkHeader (line : String) : Option (Nat × Option Nat × Nat × Option Nat) :=
  match line.toList with
  | '@' :: '@' :: ' ' :: '-' :: cs =>
    match readDigits cs with
    | none => none
    | some (oldStart, cs1) =>
      let r1 := readOptCount cs1
      match r1.2 with
      | ' ' :: '+' :: cs2 =>
        match readDigits cs2 with
        | none => none
        | some (newStart, cs3) =>
          let r2 := readOptCount cs3
          match r2.2 with
          | ' ' :: '@' :: '@' :: _ => some (oldStart, r1.1, newStart, r2.1)
          | _ => none
      | _ => none
  | _ => none

/-- One-pass rendering of `parse_hunks`' nested loops: the outer `while` plus
the inner hunk-line collection loop (which stops at the next line starting with
`@@`, at which the outer loop resumes) become a single scan carrying the hunk
currently being collected.  Outside a hunk, `---`/`+++` lines and every other
line that is not a parsable `@@` header are skipped alike; inside a hunk every
line not starting with `@@` (whatever its first character) is collected. -/
def parseHunksGo : List String → Option (Nat × Nat × List String) →
    List (Nat × Nat × List String)
  | [], none => []
  | [], some h => [h]
  | line :: rest, cur =>
    if pyStartswith line "@@" then
      match parseHunkHeader line with
      | some (oldStart, _, newStart, _) =>
        match cur with
        | some h => h :: parseHunksGo rest (some (oldStart, newStart, []))
        | none => parseHunksGo rest (some (oldStart, newStart, []))
      | none =>
        match cur with
        | some h => h :: parseHunksGo rest none
        | none => parseHunksGo rest none
    else
      match cur with
      | some (oldStart, newStart, body) =>
        parseHunksGo rest (some (oldStart, newStart, body ++ [line]))
      | none => parseHunksGo rest none

/-- `DiffParser.parse_hunks`: scan the patch lines; skip `---`/`+++` header
lines; at a line starting with `@@` that matches the hunk-header regex, collect
every following line up to (but not including) the next line starting with `@@`
as the hunk body and record `(old_start, new_start, body)`; any other line
(including an unparsable `@@` line) is skipped.  The parsed counts are bound in
the Python (`old_count`/`new_count`, defaulting to 1) but never used, exactly as
here where they are dropped from the header result. -/
def parseHunks (patchLines : List String) : List (Nat × Nat × List String) :=
  parseHunksGo patchLines none

/-! ## `DiffParser.apply_patch` (lines 53-94) -/

/-- The per-hunk classification loop of `apply_patch` (lines 66-76): walk the
hunk body keeping `context_count` (incremented only on context lines); a `-`
line records the current `context_count` in `removals`; a `+` line records its
text (without the marker) in `additions`. -/
def classifyHunk : List String → Nat → List Nat × List String
  | [], _ => ([], [])
  | l :: rest, ctx =>
    if pyStartswith l "-" then
      let r := classifyHunk rest ctx
      (ctx :: r.1, r.2)
    else if pyStartswith l "+" then
      let r := classifyHunk rest ctx
      (r.1, pyTail l :: r.2)
    else if pyStartswith l " " then
      classifyHunk rest (ctx + 1)
    else
      classifyHunk rest ctx

/-- The removal loop (lines 80-82): `for idx in reversed(removals): if
old_start - 1 + idx < len(lines): lines.pop(old_start - 1 + idx)`.  The guard
is a signed comparison against the *current* length; `pop` may still raise
`IndexError` on a doubly-negative index, propagated as `none`. -/
def applyRemovals (oldStart : Nat) (removals : List Nat) (lines : List String) :
    Option (List String) :=
  removals.reverse.foldlM
    (fun ls idx =>
      let pos : Int := (oldStart : Int) - 1 + (idx : Int)
      if pos < (ls.length : Int) then pyPop pos ls else some ls)
    lines

/-- The insertion loop (lines 85-88): insert all additions starting at
`insert_pos = old_start - 1`, advancing by one after each insertion. -/
def insertAdditions (pos : Int) (adds : List String) (lines : List String) :
    List String :=
  match adds with
  | [] => lines
  | a :: rest => insertAdditions (pos + 1) rest (pyInsert pos a lines)

/-- The hunk loop of `apply_patch` (lines 64-88): hunks are applied in reverse
order; for each, removals then insertions. -/
def applyHunks (lines : List String) (hunks : List (Nat × Nat × List String)) :
    Option (List String) :=
  hunks.reverse.foldlM
    (fun ls h =>
      let cl := classifyHunk h.2.2 0
      (applyRemovals h.1 cl.1 ls).map (insertAdditions ((h.1 : Int) - 1) cl.2))
    lines

/-- `DiffParser.apply_patch(original_code, patch)`.  The Python wraps the body
in `try/except Exception: return None`; the only in-model exception is the
`IndexError` from `pyPop`, so the result is `none` exactly when a pop raises. -/
def apply_patch (original patch : String) : Option String :=
  (applyHunks (splitLines original) (parseHunks (splitLines (pyStrip patch)))).map
    joinLines

/-! ## `DiffParser.apply_simple_patch` (lines 96-153) -/

/-- Final index after `while original_idx < old_start and original_idx < len(lines)`
starting from `idx` (the copied lines are `lines[idx:result]`). -/
def advanceTo (oldStart : Int) (len idx : Nat) : Nat :=
  if (idx : Int) < oldStart then max idx (min oldStart.toNat len) else idx

/-- One-pass rendering of the nested loops of `apply_simple_patch` (lines
106-142), carrying the original-line cursor and whether the scan is inside a
hunk body (the Python's inner `while` loop, which stops at the next `@@` line,
at which the outer loop resumes).  At a parsable `@@` header the unchanged lines
`lines[original_idx:old_start-1]` (clamped) are copied; inside a body `+` emits
the text after the marker, `-` advances the cursor, a context line emits its
text and advances the cursor, any other first character is skipped; outside a
body every non-header line (`---`, `+++` and all others) is skipped.  Returns
the emitted lines and the final cursor. -/
def simpleGo (lines : List String) : List String → Bool → Nat → List String × Nat
  | [], _, idx => ([], idx)
  | line :: rest, inBody, idx =>
    if pyStartswith line "@@" then
      match parseHunkHeader line with
      | some (os, _, _, _) =>
        let oldStart : Int := (os : Int) - 1
        let idx1 := advanceTo oldStart lines.length idx
        let copied := (lines.drop idx).take (idx1 - idx)
        let r := simpleGo lines rest true idx1
        (copied ++ r.1, r.2)
      | none => simpleGo lines rest false idx
    else if inBody then
      if pyStartswith line "+" then
        let r := simpleGo lines rest true idx
        (pyTail line :: r.1, r.2)
      else if pyStartswith line "-" then
        simpleGo lines rest true (idx + 1)
      else if pyStartswith line " " then
        let r := simpleGo lines rest true (idx + 1)
        (pyTail line :: r.1, r.2)
      else
        simpleGo lines rest true idx
    else
      simpleGo lines rest false idx

/-- `DiffParser.apply_simple_patch(original_code, patch)`: the single
left-to-right pass; after the scan, the remaining original lines
(`lines[original_idx:]`) are appended.  No statement in its body can raise, so
(unlike `apply_patch`) it always returns a string. -/
def apply_simple_patch (original patch : String) : Option String :=
  let lines := splitLines original
  let sc := simpleGo lines (splitLines (pyStrip patch)) false 0
  some (joinLines (sc.1 ++ lines.drop sc.2))

/-! ## `validate_patch` (`app/agents/all_agents.py`, lines 87-104)

`ast.parse` (the CPython parser) is an external collaborator; it is modelled as
an oracle `checker : String → Option SyntaxErr` returning `none` when the text
parses and the raised `SyntaxError`'s `msg`/`lineno` otherwise.  Calling
`ast.parse(None)` — which happens whenever `apply_patch` returns `None`, since
`validate_patch` only guards against a `ValueError` that `apply_patch` never
raises — raises a `TypeError` that nothing in `validate_patch` catches. -/

/-- The `msg` and `lineno` of a Python `SyntaxError`. -/
structure SyntaxErr where
  msg : String
  lineno : Nat
deriving DecidableEq, Repr

/-- An uncaught Python exception escaping a modelled function. -/
inductive PyExc where
  | typeError
  | attributeError
deriving DecidableEq, Repr

/-- The dict returned by `validate_patch`: keys `valid`, and `patched_code`
(success) or `error` (failure); a missing key is `none`. -/
structure ValidationOut where
  valid : Bool
  patched_code : Option String := none
  error : Option String := none
deriving DecidableEq, Repr

/-- `validate_patch(original, patch)`.  The `try/except ValueError` around the
`apply_patch` call never fires (on failure `apply_patch` returns `None` rather
than raising), so the branch returning `Failed to apply patch: ...` is dead
code; `ast.parse(None)` then raises `TypeError`, which the `except SyntaxError`
does not catch. -/
def validate_patch (checker : String → Option SyntaxErr) (original patch : String) :
    Except PyExc ValidationOut :=
  match apply_patch original patch with
  | none => .error .typeError
  | some code =>
    match checker code with
    | none => .ok { valid := true, patched_code := some code }
    | some e =>
      .ok { valid := false,
            error := some ("SyntaxError: " ++ e.msg ++ " at line " ++ toString e.lineno) }

/-! ## ConversationMessage persistence

`app/models/message.py` defines `ConversationMessage` with `id` as the string
primary key.  Only the columns the claims speak about are modelled; the
remaining columns (tool calls, token usage, event payload, timestamps) ride
along unexamined in the source writes and are omitted here.  The message store
is the table as a list of rows in insertion order. -/

structure MsgRec where
  id : String
  session_id : String
  role : String
  content : String
  stream_sequence : Option Nat
  iteration : Option Nat
deriving DecidableEq, Repr

/-- `db.query(ConversationMessage).filter(ConversationMessage.id == id).first()`. -/
def lookupMessage (store : List MsgRec) (id : String) : Option MsgRec :=
  store.find? (fun m => m.id == id)

/-- `VibecodeService._save_conversation_message_async` (`all_agents.py`, lines
516-585): query by id; insert only when no row exists, otherwise log
"already exists, skipping save" and do nothing.  Errors are caught and logged,
so the function never raises. -/
def save_conversation_message (store : List MsgRec) (m : MsgRec) : List MsgRec :=
  match lookupMessage store m.id with
  | some _ => store
  | none => store ++ [m]

/-- The user-message write of `send_message` (`app/api/sessions.py`, lines
98-123): `message_id = request.message_id or str(uuid.uuid4())`; the existence
check runs only when the client supplied an id; the row is inserted only when
no row with that id exists.  `genId` stands for the freshly generated UUID.
Returns the store and the message id used. -/
def send_message_save (store : List MsgRec) (sessionId prompt : String)
    (providedId : Option String) (genId : String) : List MsgRec × String :=
  let messageId := providedId.getD genId
  let existing := match providedId with
    | some pid => lookupMessage store pid
    | none => none
  match existing with
  | some _ => (store, messageId)
  | none =>
    (store ++ [{ id := messageId, session_id := sessionId, role := "user",
                 content := prompt, stream_sequence := none, iteration := none }],
     messageId)

/-! ## Stream events (`app/agents/all_agents.py`, lines 284-514)

A stream event is `RawResponsesStreamEvent` (skipped as noise),
`RunItemStreamEvent` (whose item's `output`, when it has `approved`,
`reasoning` and `commit_message` attributes, is an `EvaluationResult`), or
`AgentUpdatedStreamEvent`. -/

/-- The `EvaluationResult` pydantic model (lines 80-83). -/
structure EvalResult where
  approved : Bool
  reasoning : String
  commit_message : String
deriving DecidableEq, Repr

inductive StreamEv where
  | raw
  | runItem (output : Option EvalResult)
  | agentUpdated (name : String)
deriving DecidableEq, Repr

/-- The `evaluation` extraction at lines 364-375: a `RunItemStreamEvent` whose
item output quacks like an `EvaluationResult`. -/
def extractEval : StreamEv → Option EvalResult
  | .runItem o => o
  | _ => none

/-- `_create_message_from_event(event, session_id, sequence, iteration)` (lines
426-514), projected to the modelled columns.  The id is derived from the
session id and the per-run sequence number alone — the event itself contributes
no entropy to the id.  `content` is filled from OpenAI item payloads in the
source and left at its initial `""` here. -/
def create_message_from_event (sessionId : String) (_e : StreamEv)
    (seq iteration : Nat) : MsgRec :=
  { id := sessionId ++ "_event_" ++ toString seq
    session_id := sessionId
    role := "assistant"
    content := ""
    stream_sequence := some seq
    iteration := some iteration }

/-- Observable side effects of the stream-event loop, in program order:
`dbSave m` is the awaited `_save_conversation_message_async` call for message
id `m` (line 322); `socketEmit m` is the awaited `socketio_manager.sio.emit`
for message id `m` (line 350). -/
inductive Act where
  | dbSave (id : String)
  | socketEmit (id : String)
deriving DecidableEq, Repr

/-- The stream-event loop of `VibecodeService.vibecode` (`all_agents.py`, lines
293-375) for one agent run: skip `RawResponsesStreamEvent`s; for each remaining
event increment the sequence counter, build the message, **await the database
save, then emit on Socket.io** (emission only when a socketio manager, session
id and project id are present — the flag `emitOn`), and remember the last
`EvaluationResult` seen.  Returns the collected messages, the ordered action
trace, and the final `evaluation`. -/
def processEvents (sessionId : String) (iteration : Nat) (emitOn : Bool) :
    List StreamEv → Nat → List MsgRec × List Act × Option EvalResult
  | [], _ => ([], [], none)
  | .raw :: rest, seq => processEvents sessionId iteration emitOn rest seq
  | e :: rest, seq =>
    let seq' := seq + 1
    let msg := create_message_from_event sessionId e seq' iteration
    let r := processEvents sessionId iteration emitOn rest seq'
    (msg :: r.1,
     .dbSave msg.id :: ((if emitOn then [.socketEmit msg.id] else []) ++ r.2.1),
     r.2.2.orElse (fun _ => extractEval e))

/-! ## `_stream_agent_response` (`app/services/vibecode_service.py`, lines
213-249): emit on the realtime bus first, then schedule the database write as a
fire-and-forget background task. -/

/-- Observable actions of `_stream_agent_response`, in program order. -/
inductive RespAct where
  | emitRoom (roomId event : String)
  | spawnSaveTask
deriving DecidableEq, Repr

/-- The statement order of `_stream_agent_response`: (1) await
`socketio_manager.emit_to_room(room_id, "conversation_message", ...)`;
(2) `asyncio.create_task(self._save_conversation_message_async(...))`. -/
def stream_agent_response (roomId : String) : List RespAct :=
  [.emitRoom roomId "conversation_message", .spawnSaveTask]

/-! ## `VibecodeService.vibecode` (`app/services/vibecode_service.py`, lines 60-211)

The generator capability (`vibecoder_agent.generate`) is external: it is a
parameter mapping the iteration index (modelling the successive responses of
the stateful external agent) and the current `evaluator_feedback` to a
response, which per the call sites is either a text answer or a
`(patch, description)` pair, each with a token count (`usage`, 0 when absent).

The loop body calls `validate_patch` — which returns a *dict* — and then reads
`validation.valid` as an *attribute* (line 124), which raises
`AttributeError: 'dict' object has no attribute 'valid'`.  Consequently every
patch-bearing iteration raises (either that `AttributeError`, or the
`TypeError` from inside `validate_patch` when the patch fails to apply), and
the evaluator call, the `Diff` creation, the retry `continue` and the
max-iterations return below it are unreachable from a patch response. -/

inductive SvcGen where
  | text (content : String) (tokens : Nat)
  | patch (patch : String) (description : String) (tokens : Nat)
deriving DecidableEq, Repr

/-- The `VibecodeResult` of `vibecode_service.py` (lines 28-51). -/
structure SvcResult where
  content : Option String := none
  diff_id : Option String := none
  patch : Option String := none
  total_tokens : Nat := 0
  error : Option String := none
deriving DecidableEq, Repr

/-- The `for iteration in range(3)` loop of `VibecodeService.vibecode`,
returning the result (or the uncaught exception) together with
`self.last_iteration_count` (set to `iteration + 1` at the top of each
iteration and surviving an exception). -/
def svcGo (gen : Nat → Option String → SvcGen) (checker : String → Option SyntaxErr)
    (currentCode : String) :
    Nat → Nat → Option String → Nat → Except PyExc SvcResult × Nat
  | 0, i, _, tokens =>
    (.ok { error := some "Max iterations reached without approval",
           total_tokens := tokens }, i)
  | _remaining + 1, i, feedback, tokens =>
    match gen i feedback with
    | .text c tk =>
      (.ok { content := some c, total_tokens := tokens + tk }, i + 1)
    | .patch p _d _tk =>
      match validate_patch checker currentCode p with
      | .error e => (.error e, i + 1)
      | .ok _ => (.error .attributeError, i + 1)

/-- `VibecodeService.vibecode` of `vibecode_service.py`: look up the project
(`Project not found` short-circuits), then run at most 3 iterations.  The
`remaining + 1` pattern above never recurses because both patch outcomes raise;
this mirrors the source, where the `continue` statements are unreachable. -/
def svc_vibecode (gen : Nat → Option String → SvcGen)
    (checker : String → Option SyntaxErr) (projectFound : Bool)
    (currentCode : String) : Except PyExc SvcResult × Nat :=
  if projectFound then svcGo gen checker currentCode 3 0 none 0
  else (.ok { error := some "Project not found" }, 0)

/-! ## `VibecodeService.vibecode` (`app/agents/all_agents.py`, lines 147-424)

The streamed agent run is external: a parameter mapping the iteration index and
the current prompt to the produced stream events and the run's `final_output`. -/

structure AgentRun where
  events : List StreamEv
  final_output : Option String
deriving DecidableEq, Repr

/-- The `VibecodeResult` of `all_agents.py` (lines 134-138); the collected
messages are returned separately below. -/
structure AAResult where
  content : Option String := none
  diff_id : Option String := none
deriving DecidableEq, Repr

/-- The `for iteration in range(3)` loop of `all_agents.py`'s
`VibecodeService.vibecode`: run the agent, process its stream events
(`processEvents`); if an `EvaluationResult` was seen and approved, return a
result carrying `diff_id = "generated-diff-id"`; if seen and rejected, loop
with the rejection prompt; if none was seen, return the run's `final_output`
as a text answer.  After three iterations the loop falls through to
`VibecodeResult(content="Maximum iteration limit reached without approval")` —
delivered in the `content` field; this `VibecodeResult` has no error field at
all.  Returns (result, `self.last_iteration_count`, collected messages, action
trace). -/
def aaGo (run : Nat → String → AgentRun) (sessionId : String) (emitOn : Bool) :
    Nat → Nat → String → List MsgRec → List Act → Nat →
    AAResult × Nat × List MsgRec × List Act
  | 0, _, _, msgs, trace, attempts =>
    ({ content := some "Maximum iteration limit reached without approval" },
     attempts, msgs, trace)
  | remaining + 1, i, prompt, msgs, trace, _ =>
    let r := run i prompt
    let pr := processEvents sessionId i emitOn r.events 0
    let msgs' := msgs ++ pr.1
    let trace' := trace ++ pr.2.1
    match pr.2.2 with
    | some ev =>
      if ev.approved then
        ({ diff_id := some "generated-diff-id" }, i + 1, msgs', trace')
      else
        aaGo run sessionId emitOn remaining (i + 1)
          ("The evaluator rejected your patch. Feedback: " ++ ev.reasoning ++
            "\n\nPlease try again.")
          msgs' trace' (i + 1)
    | none =>
      ({ content := some (r.final_output.getD "") }, i + 1, msgs', trace')

/-- `all_agents.py`'s `VibecodeService.vibecode`, entered with the user
prompt. -/
def aa_vibecode (run : Nat → String → AgentRun) (sessionId : String)
    (emitOn : Bool) (prompt : String) : AAResult × Nat × List MsgRec × List Act :=
  aaGo run sessionId emitOn 3 0 prompt [] [] 0

/-! ## Version store (`app/services/git_service.py`)

The git repository of a project is its commit list; a commit id is a function
of the history (modelling content-addressed hashing, collision-free by
construction).  A missing repository makes `pygit2.Repository` raise, which
both `get_head_commit` and `commit_changes` catch, returning `None`; other
external I/O failures inside `commit_changes` (its broad
`except Exception: return None`) are modelled by the `writeOk` flag. -/

structure GitCommit where
  content : String
  message : String
deriving DecidableEq, Repr

/-- Map from project slug to its repository's commit list; a slug absent from
the map has no repository. -/
structure GitState where
  repos : List (String × List GitCommit)
deriving DecidableEq, Repr

/-- The commit id of the head of a nonempty history. -/
def gitSha (commits : List GitCommit) : String :=
  "commit-" ++ toString commits.length

def findRepo (g : GitState) (slug : String) : Option (List GitCommit) :=
  (g.repos.find? (fun r => r.1 == slug)).map (fun r => r.2)

/-- `GitService.get_head_commit` (lines 68-79): `None` when the repository is
missing (exception caught) or empty, else the head commit id. -/
def get_head_commit (g : GitState) (slug : String) : Option String :=
  match findRepo g slug with
  | none => none
  | some [] => none
  | some (c :: cs) => some (gitSha (c :: cs))

/-- `GitService.commit_changes` (lines 100-142): write the file and append a
commit, returning the new head id; on any failure (missing repository, or an
external I/O error — `writeOk = false`) the exception is caught and `None` is
returned with the store unchanged. -/
def commit_changes (writeOk : Bool) (g : GitState) (slug content message : String) :
    GitState × Option String :=
  if writeOk then
    match findRepo g slug with
    | none => (g, none)
    | some cs =>
      let cs' := cs ++ [{ content := content, message := message }]
      ({ repos := g.repos.map (fun r => if r.1 == slug then (r.1, cs') else r) },
       some (gitSha cs'))
  else (g, none)

/-! ## Diff lifecycle (`app/api/diffs.py`)

`app/models/diff.py`: the claim-relevant columns of `Diff` (`target_branch`,
`test_results`, `tests_run_at` and `vibecoder_prompt` are never touched by
`review_diff`/`commit_diff` and are omitted) and of `Project`.  An
`HTTPException` raised before any mutation leaves the database untouched;
mutations become durable at `db.commit()`. -/

structure DiffRec where
  id : String
  session_id : String
  project_id : String
  base_commit : String
  diff_content : String
  status : String
  evaluator_reasoning : String
  commit_message : String
  human_feedback : Option String
  committed_sha : Option String
deriving DecidableEq, Repr

structure ProjectRec where
  id : String
  slug : String
  current_code : Option String
  current_commit : Option String
deriving DecidableEq, Repr

structure Db where
  diffs : List DiffRec
  projects : List ProjectRec
deriving DecidableEq, Repr

def findDiff (db : Db) (id : String) : Option DiffRec :=
  db.diffs.find? (fun d => d.id == id)

def findProject (db : Db) (id : String) : Option ProjectRec :=
  db.projects.find? (fun p => p.id == id)

def updateDiff (db : Db) (d : DiffRec) : Db :=
  { db with diffs := db.diffs.map (fun x => if x.id == d.id then d else x) }

def updateProject (db : Db) (p : ProjectRec) : Db :=
  { db with projects := db.projects.map (fun x => if x.id == p.id then p else x) }

/-- The error outcomes of the diff endpoints: `HTTPException`s by status code,
plus the uncaught `TypeError` of `commit_diff` (see below). -/
inductive ApiErr where
  | notFound (detail : String)
  | badRequest (detail : String)
  | conflict (detail : String)
  | typeError
deriving DecidableEq, Repr

/-- `review_diff` (`diffs.py`, lines 139-175): 404 when the diff is missing;
400 when its status is not `evaluator_approved` (raised before any mutation);
otherwise set `human_approved`, or `human_rejected` with
`request.feedback or "No feedback provided"`, and commit.  Returns the
(possibly updated) database and the outcome. -/
def review_diff (db : Db) (diffId : String) (approved : Bool)
    (feedback : Option String) : Db × Except ApiErr DiffRec :=
  match findDiff db diffId with
  | none => (db, .error (.notFound "Diff not found"))
  | some d =>
    if d.status ≠ "evaluator_approved" then
      (db, .error (.badRequest
        ("Diff is not pending review (status: " ++ d.status ++ ")")))
    else
      let d' :=
        if approved then { d with status := "human_approved" }
        else { d with status := "human_rejected",
                      human_feedback := some (pyOrStr feedback "No feedback provided") }
      (updateDiff db d', .ok d')

/-- The `CommitResponse` of `diffs.py` (lines 31-34). -/
structure CommitResp where
  diff_id : String
  committed_sha : String
  message : String
deriving DecidableEq, Repr

/-- `commit_diff` (`diffs.py`, lines 178-249): 404s for a missing diff or
project; 400 when the status is not `human_approved`; `apply_patch` of the
stored diff against `project.current_code or ""`, 400 `Failed to apply patch`
on `None`; then the optimistic-concurrency check — re-read the head and 409 on
mismatch with `diff.base_commit` (every error so far is raised before any
mutation or store write).  On match call `commit_changes`, then
*unconditionally* set `status = "committed"` and `committed_sha = commit_sha`,
update the project, and `db.commit()`; finally build the response, where
`commit_sha[:8]` raises `TypeError` when `commit_changes` returned `None` —
after the database commit. -/
def commit_diff (db : Db) (git : GitState) (writeOk : Bool) (diffId : String)
    (reqMessage : Option String) : Db × GitState × Except ApiErr CommitResp :=
  match findDiff db diffId with
  | none => (db, git, .error (.notFound "Diff not found"))
  | some d =>
    if d.status ≠ "human_approved" then
      (db, git, .error (.badRequest ("Diff is not approved (status: " ++ d.status ++ ")")))
    else
      match findProject db d.project_id with
      | none => (db, git, .error (.notFound "Project not found"))
      | some proj =>
        match apply_patch (proj.current_code.getD "") d.diff_content with
        | none => (db, git, .error (.badRequest "Failed to apply patch"))
        | some newCode =>
          let currentCommit := get_head_commit git proj.slug
          if currentCommit ≠ some d.base_commit then
            (db, git, .error (.conflict
              ("Base commit mismatch. Expected: " ++ d.base_commit ++
                ", Current: " ++ pyStrOpt currentCommit)))
          else
            let w := commit_changes writeOk git proj.slug newCode
              (pyOrStr reqMessage d.commit_message)
            let d' := { d with status := "committed", committed_sha := w.2 }
            let proj' := { proj with current_code := some newCode,
                                     current_commit := w.2 }
            let db' := updateProject (updateDiff db d') proj'
            match w.2 with
            | some sha =>
              (db', w.1, .ok { diff_id := diffId, committed_sha := sha,
                               message := "Successfully committed as " ++
                                 String.mk (sha.toList.take 8) })
            | none => (db', w.1, .error .typeError)

/-! ## Shared lemmas -/

/-- Splitting on newlines and joining with newlines is the identity, so a
zero-hunk `apply_patch` returns the original text verbatim (trailing-newline
presence included). -/
theorem joinLines_splitLines (s : String) : joinLines (splitLines s) = s := by
  unfold joinLines splitLines
  rw [List.map_map]
  have h : String.toList ∘ String.mk = id := funext fun l => rfl
  rw [h, List.map_id, List.intercalate_splitOn]
  rfl

/-- A zero-hunk patch leaves the line list unchanged. -/
theorem applyHunks_nil (lines : List String) : applyHunks lines [] = some lines := rfl

/-! ## Claim C5 -/

/-- Claim C5 (code_bug evidence): `validate` does not always return a
`ValidationResult`.  On the concrete input below, `apply_patch` hits an
`IndexError` (a pop at a doubly-negative index) and returns `None`;
`validate_patch` then calls `ast.parse(None)`, which raises a `TypeError` that
its `except SyntaxError` does not catch — the function raises instead of
returning `{valid: false, error: "Failed to apply patch: ..."}`, whatever the
syntax checker would say. -/
theorem C5_code_eval :
    apply_patch "" "@@ -0,0 +0,0 @@\n-a\n-b" = none ∧
    ∀ checker : String → Option SyntaxErr,
      validate_patch checker "" "@@ -0,0 +0,0 @@\n-a\n-b" = .error .typeError := by
  have h : apply_patch "" "@@ -0,0 +0,0 @@\n-a\n-b" = none := by decide
  exact ⟨h, fun checker => by simp [validate_patch, h]⟩

/-! ## Claim C6 -/

/-- Claim C6 (confirmed): `review` on a Diff whose status is not
`evaluator_approved` and `commit` on a Diff whose status is not
`human_approved` fail with the wrong-lifecycle-state error (HTTP 400, the
realization of `InvalidStateError`) and produce zero side effects: the
database is returned unchanged (every field of every Diff intact) and the
version store is untouched. -/
theorem C6_lifecycle :
    (∀ (db : Db) (diffId : String) (approved : Bool) (feedback : Option String)
        (d : DiffRec),
        findDiff db diffId = some d →
        d.status ≠ "evaluator_approved" →
        review_diff db diffId approved feedback =
          (db, .error (.badRequest
            ("Diff is not pending review (status: " ++ d.status ++ ")")))) ∧
    (∀ (db : Db) (git : GitState) (writeOk : Bool) (diffId : String)
        (msg : Option String) (d : DiffRec),
        findDiff db diffId = some d →
        d.status ≠ "human_approved" →
        commit_diff db git writeOk diffId msg =
          (db, git, .error (.badRequest
            ("Diff is not approved (status: " ++ d.status ++ ")")))) := by
  constructor
  · intro db diffId approved feedback d hfind hstatus
    simp [review_diff, hfind, hstatus]
  · intro db git writeOk diffId msg d hfind hstatus
    simp [commit_diff, hfind, hstatus]

/-- A Diff already committed, for exercising the lifecycle guards. -/
def c6Diff : DiffRec :=
  { id := "d0", session_id := "s", project_id := "p1", base_commit := "commit-1",
    diff_content := "", status := "committed", evaluator_reasoning := "ok",
    commit_message := "m", human_feedback := none,
    committed_sha := some "commit-1" }

def c6Db : Db := { diffs := [c6Diff], projects := [] }

/-- Witness for C6 at a concrete committed Diff: both endpoints reject it and
leave the state untouched. -/
theorem C6_lifecycle_witness :
    review_diff c6Db "d0" true none =
      (c6Db, .error (.badRequest
        ("Diff is not pending review (status: " ++ c6Diff.status ++ ")"))) ∧
    commit_diff c6Db { repos := [] } true "d0" none =
      (c6Db, { repos := [] }, .error (.badRequest
        ("Diff is not approved (status: " ++ c6Diff.status ++ ")"))) :=
  ⟨C6_lifecycle.1 c6Db "d0" true none c6Diff (by decide) (by decide),
   C6_lifecycle.2 c6Db { repos := [] } true "d0" none c6Diff (by decide) (by decide)⟩

/-! ## The concurrency scenario state (used by C7 and C8)

One project with one-commit history (head `commit-1`) and two human-approved
Diffs sharing base version `commit-1`; their stored patches are empty, which
`apply_patch` applies cleanly (zero hunks, text unchanged). -/

def scProject : ProjectRec :=
  { id := "p1", slug := "proj", current_code := some "x",
    current_commit := some "commit-1" }

def scDiff1 : DiffRec :=
  { id := "d1", session_id := "s", project_id := "p1", base_commit := "commit-1",
    diff_content := "", status := "human_approved", evaluator_reasoning := "ok",
    commit_message := "m1", human_feedback := none, committed_sha := none }

def scDiff2 : DiffRec :=
  { scDiff1 with id := "d2", commit_message := "m2" }

def scDb : Db := { diffs := [scDiff1, scDiff2], projects := [scProject] }

def scGit : GitState :=
  { repos := [("proj", [{ content := "x", message := "init" }])] }

/-! ## Claim C8 -/

/-- Claim C8 (code_bug evidence): when the version-store write fails
(`commit_changes` returns `None` — here the external failure flag is set on an
otherwise committable state), `commit_diff` still sets the Diff's status to
`committed` with a `None` committed id and commits the database transaction;
the endpoint then raises `TypeError` (from `commit_sha[:8]`) *after* the
database commit, and the version store was never advanced. -/
theorem C8_code_eval :
    (commit_diff scDb scGit false "d1" none).2.2 = .error .typeError ∧
    ((findDiff (commit_diff scDb scGit false "d1" none).1 "d1").map
        (fun d => (d.status, d.committed_sha))) = some ("committed", none) ∧
    (commit_diff scDb scGit false "d1" none).2.1 = scGit := by
  decide

/-! ## Claim C7 -/

/-- A human-approved Diff whose base is stale *and* whose stored patch no
longer applies (its patch triggers `apply_patch`'s `IndexError`, so
`apply_patch` returns `None`). -/
def cexDiff : DiffRec :=
  { id := "d1", session_id := "s", project_id := "p1", base_commit := "V",
    diff_content := "@@ -0,0 +0,0 @@\n-a\n-b", status := "human_approved",
    evaluator_reasoning := "ok", commit_message := "m", human_feedback := none,
    committed_sha := none }

def cexProject : ProjectRec :=
  { id := "p1", slug := "proj", current_code := some "",
    current_commit := some "commit-1" }

def cexDb : Db := { diffs := [cexDiff], projects := [cexProject] }

def cexGit : GitState :=
  { repos := [("proj", [{ content := "x0", message := "m0" }])] }

/-- Counterexample to claim C7 as stated: a commit of a `human_approved` Diff
whose stored base differs from the current head does *not* always fail with
the optimistic-concurrency error — `commit_diff` applies the patch before the
head comparison, so when the stored patch fails to apply the endpoint fails
with the patch-apply 400 instead of the 409.  (No write and no status change
happen either way.) -/
theorem C7_counterexample :
    cexDiff.status = "human_approved" ∧
    get_head_commit cexGit "proj" ≠ some cexDiff.base_commit ∧
    commit_diff cexDb cexGit true "d1" none =
      (cexDb, cexGit, .error (.badRequest "Failed to apply patch")) := by
  decide

/-- Claim C7 (corrected): provided the stored patch still applies to the
current project code, committing a `human_approved` Diff whose stored base
differs from the version store's current head fails with the 409
base-commit-mismatch error (the realization of `OptimisticConcurrencyError`,
distinct from the patch-apply 400) and performs no version-store write and no
database change.  In particular — the concurrency scenario — with two Diffs
sharing base version `commit-1`, committing the first succeeds and advances
the head to `commit-2`, and committing the second then fails with the 409,
changing nothing. -/
theorem C7_amended :
    (∀ (db : Db) (git : GitState) (writeOk : Bool) (diffId : String)
        (msg : Option String) (d : DiffRec) (proj : ProjectRec) (newCode : String),
        findDiff db diffId = some d →
        d.status = "human_approved" →
        findProject db d.project_id = some proj →
        apply_patch (proj.current_code.getD "") d.diff_content = some newCode →
        get_head_commit git proj.slug ≠ some d.base_commit →
        commit_diff db git writeOk diffId msg =
          (db, git, .error (.conflict
            ("Base commit mismatch. Expected: " ++ d.base_commit ++
              ", Current: " ++ pyStrOpt (get_head_commit git proj.slug))))) ∧
    ((commit_diff scDb scGit true "d1" none).2.2 =
        .ok { diff_id := "d1", committed_sha := "commit-2",
              message := "Successfully committed as commit-2" } ∧
      get_head_commit (commit_diff scDb scGit true "d1" none).2.1 "proj" =
        some "commit-2" ∧
      commit_diff (commit_diff scDb scGit true "d1" none).1
          (commit_diff scDb scGit true "d1" none).2.1 true "d2" none =
        ((commit_diff scDb scGit true "d1" none).1,
         (commit_diff scDb scGit true "d1" none).2.1,
         .error (.conflict
           "Base commit mismatch. Expected: commit-1, Current: commit-2"))) := by
  constructor
  · intro db git writeOk diffId msg d proj newCode hfind hstatus hproj happly hhead
    simp [commit_diff, hfind, hstatus, hproj, happly, hhead]
  · refine ⟨by decide, by decide, by decide⟩

/-- The project record as the first scenario commit leaves it. -/
def scProject2 : ProjectRec :=
  { scProject with current_code := some "x", current_commit := some "commit-2" }

/-- Witness for C7's universal part, at the scenario's second commit: after
`d1` is committed the head is `commit-2`, so committing `d2` (base
`commit-1`) gets the 409 and the state is unchanged. -/
theorem C7_amended_witness :
    commit_diff (commit_diff scDb scGit true "d1" none).1
        (commit_diff scDb scGit true "d1" none).2.1 true "d2" none =
      ((commit_diff scDb scGit true "d1" none).1,
       (commit_diff scDb scGit true "d1" none).2.1,
       .error (.conflict
         ("Base commit mismatch. Expected: " ++ scDiff2.base_commit ++
           ", Current: " ++
           pyStrOpt (get_head_commit (commit_diff scDb scGit true "d1" none).2.1
             scProject2.slug)))) :=
  C7_amended.1 (commit_diff scDb scGit true "d1" none).1
    (commit_diff scDb scGit true "d1" none).2.1 true "d2" none scDiff2 scProject2
    "x" (by decide) (by decide) (by decide) (by decide) (by decide)

/-! ## Claim C9 -/

/-- Claim C9 (confirmed): writing two ConversationMessages with the same id
(and possibly different content) stores exactly one record, holding the first
write's fields; the second write is a no-op (the store is unchanged), not an
error.  This holds for the server-originated stream-event write
(`_save_conversation_message_async`) and for the client-originated user-prompt
write (`send_message` with a client-supplied `message_id`). -/
theorem C9_idempotent :
    (∀ (store : List MsgRec) (m1 m2 : MsgRec),
        m2.id = m1.id →
        lookupMessage store m1.id = none →
        save_conversation_message (save_conversation_message store m1) m2 =
            save_conversation_message store m1 ∧
          lookupMessage (save_conversation_message
            (save_conversation_message store m1) m2) m1.id = some m1 ∧
          ((save_conversation_message store m1).filter
            (fun m => m.id == m1.id)).length = 1) ∧
    (∀ (store : List MsgRec) (sessionId p1 p2 i g1 g2 : String),
        lookupMessage store i = none →
        (send_message_save (send_message_save store sessionId p1 (some i) g1).1
            sessionId p2 (some i) g2).1 =
            (send_message_save store sessionId p1 (some i) g1).1 ∧
          lookupMessage (send_message_save store sessionId p1 (some i) g1).1 i =
            some { id := i, session_id := sessionId, role := "user", content := p1,
                   stream_sequence := none, iteration := none }) := by
  have klookup : ∀ (store : List MsgRec) (m : MsgRec) (i : String),
      lookupMessage store i = none → m.id = i →
      lookupMessage (store ++ [m]) i = some m := by
    intro store m i hnone hmid
    unfold lookupMessage at *
    rw [List.find?_append, hnone]
    simp [hmid]
  have kfilter : ∀ (store : List MsgRec) (i : String),
      lookupMessage store i = none →
      store.filter (fun m => m.id == i) = [] := by
    intro store i hnone
    unfold lookupMessage at hnone
    rw [List.filter_eq_nil_iff]
    intro m hm
    have := List.find?_eq_none.mp hnone m hm
    simpa using this
  constructor
  · intro store m1 m2 hid hnone
    have h1 : lookupMessage (store ++ [m1]) m1.id = some m1 :=
      klookup store m1 m1.id hnone rfl
    have hs1 : save_conversation_message store m1 = store ++ [m1] := by
      simp [save_conversation_message, hnone]
    refine ⟨?_, ?_, ?_⟩
    · rw [hs1]
      simp [save_conversation_message, hid, h1]
    · rw [hs1]
      simp [save_conversation_message, hid, h1]
    · rw [hs1, List.filter_append, kfilter store m1.id hnone]
      simp
  · intro store sessionId p1 p2 i g1 g2 hnone
    have hs1 : (send_message_save store sessionId p1 (some i) g1).1 =
        store ++ [{ id := i, session_id := sessionId, role := "user",
                    content := p1, stream_sequence := none, iteration := none }] := by
      simp [send_message_save, hnone]
    have h1 := klookup store
      { id := i, session_id := sessionId, role := "user", content := p1,
        stream_sequence := none, iteration := none } i hnone rfl
    refine ⟨?_, ?_⟩
    · rw [hs1]
      simp [send_message_save, h1]
    · rw [hs1]
      exact h1

/-- Witness for C9: a concrete double write with the same id and different
content, for both write paths. -/
theorem C9_idempotent_witness :
    (save_conversation_message (save_conversation_message []
        { id := "id1", session_id := "s", role := "user", content := "A",
          stream_sequence := none, iteration := none })
        { id := "id1", session_id := "s", role := "user", content := "B",
          stream_sequence := none, iteration := none } =
      save_conversation_message []
        { id := "id1", session_id := "s", role := "user", content := "A",
          stream_sequence := none, iteration := none }) ∧
    (send_message_save (send_message_save [] "s" "A" (some "id2") "g1").1
        "s" "B" (some "id2") "g2").1 =
      (send_message_save [] "s" "A" (some "id2") "g1").1 :=
  ⟨(C9_idempotent.1 []
      { id := "id1", session_id := "s", role := "user", content := "A",
        stream_sequence := none, iteration := none }
      { id := "id1", session_id := "s", role := "user", content := "B",
        stream_sequence := none, iteration := none } rfl rfl).1,
   (C9_idempotent.2 [] "s" "A" "B" "id2" "g1" "g2" rfl).1⟩

/-! ## Claim C10 -/

/-- Claim C10 (confirmed): the conversation-message id of a persisted stream
event is `session_id + "_event_" + sequence`, a function of the session id and
the per-run sequence number alone; hence any two runs (or iterations) in the
same session assign identical ids to events with equal sequence numbers, and
since a save whose id already exists is skipped, the later run's messages are
silently dropped — concretely, replaying a second two-event run into the
store left by a first run stores nothing new. -/
theorem C10_id_collision :
    (∀ (sessionId : String) (e e' : StreamEv) (seq it it' : Nat),
        (create_message_from_event sessionId e seq it).id =
          (create_message_from_event sessionId e' seq it').id) ∧
    (∀ (store : List MsgRec) (msgs : List MsgRec),
        (∀ m ∈ msgs, (lookupMessage store m.id).isSome) →
        msgs.foldl save_conversation_message store = store) ∧
    ((processEvents "s" 1 true [.runItem none, .agentUpdated "Evaluator"] 0).1.foldl
        save_conversation_message
        ((processEvents "s" 0 true [.runItem none, .agentUpdated "Vibecoder"] 0).1.foldl
          save_conversation_message []) =
      (processEvents "s" 0 true [.runItem none, .agentUpdated "Vibecoder"] 0).1.foldl
        save_conversation_message []) := by
  refine ⟨fun _ _ _ _ _ _ => rfl, ?_, by decide⟩
  intro store msgs
  induction msgs generalizing store with
  | nil => intro _; rfl
  | cons m rest ih =>
    intro h
    have hm : (lookupMessage store m.id).isSome := h m (List.mem_cons_self m rest)
    have hsave : save_conversation_message store m = store := by
      unfold save_conversation_message
      cases hl : lookupMessage store m.id with
      | none => rw [hl] at hm; simp at hm
      | some _ => rfl
    rw [List.foldl_cons, hsave]
    exact ih store (fun x hx => h x (List.mem_cons_of_mem m hx))

/-- Witness for C10's dedup part at a concrete store and message list. -/
theorem C10_id_collision_witness :
    [({ id := "s_event_1", session_id := "s", role := "assistant", content := "",
        stream_sequence := some 1, iteration := some 1 } : MsgRec)].foldl
      save_conversation_message
      [{ id := "s_event_1", session_id := "s", role := "assistant", content := "",
         stream_sequence := some 1, iteration := some 0 }] =
    [{ id := "s_event_1", session_id := "s", role := "assistant", content := "",
       stream_sequence := some 1, iteration := some 0 }] :=
  C10_id_collision.2.1
    [{ id := "s_event_1", session_id := "s", role := "assistant", content := "",
       stream_sequence := some 1, iteration := some 0 }]
    [{ id := "s_event_1", session_id := "s", role := "assistant", content := "",
       stream_sequence := some 1, iteration := some 1 }]
    (by decide)

/-! ## Claim C1 -/

/-- The emit-before-persist ordering: every awaited database save of a message
id is preceded by a realtime emission of that id. -/
def emitBeforeSave (tr : List Act) : Prop :=
  ∀ n id, tr.get? n = some (.dbSave id) →
    ∃ m, m < n ∧ tr.get? m = some (.socketEmit id)

/-- The converse ordering: every realtime emission of a message id is preceded
by the awaited database save of that id. -/
def saveBeforeEmit (tr : List Act) : Prop :=
  ∀ n id, tr.get? n = some (.socketEmit id) →
    ∃ m, m < n ∧ tr.get? m = some (.dbSave id)

/-- Counterexample to claim C1 as stated: in the stream-event loop, the trace
for a single meaningful event is `[dbSave, socketEmit]` — the database write is
awaited (line 322 of `all_agents.py`) *before* the Socket.io emission (line
350), so the emission is not issued before the write for any message. -/
theorem C1_counterexample :
    (processEvents "s" 0 true [.runItem none] 0).2.1 =
      [.dbSave "s_event_1", .socketEmit "s_event_1"] ∧
    ¬ emitBeforeSave (processEvents "s" 0 true [.runItem none] 0).2.1 := by
  refine ⟨by decide, fun h => ?_⟩
  obtain ⟨m, hm, _⟩ := h 0 "s_event_1" (by decide)
  exact absurd hm (Nat.not_lt_zero m)

/-- The shape of a stream-event-loop trace: a sequence of blocks, each an
awaited save followed (when emission is on) by the emission of the same id. -/
inductive SaveEmitBlocks : List Act → Prop
  | nil : SaveEmitBlocks []
  | withEmit (id : String) {rest : List Act} :
      SaveEmitBlocks rest → SaveEmitBlocks (.dbSave id :: .socketEmit id :: rest)
  | skipEmit (id : String) {rest : List Act} :
      SaveEmitBlocks rest → SaveEmitBlocks (.dbSave id :: rest)

theorem processEvents_blocks (sessionId : String) (iteration : Nat) (emitOn : Bool) :
    ∀ (events : List StreamEv) (seq : Nat),
      SaveEmitBlocks (processEvents sessionId iteration emitOn events seq).2.1 := by
  intro events
  induction events with
  | nil => intro seq; exact .nil
  | cons e rest ih =>
    intro seq
    cases e with
    | raw => simpa [processEvents] using ih seq
    | runItem o =>
      cases emitOn with
      | true => simpa [processEvents] using .withEmit _ (ih (seq + 1))
      | false => simpa [processEvents] using .skipEmit _ (ih (seq + 1))
    | agentUpdated name =>
      cases emitOn with
      | true => simpa [processEvents] using .withEmit _ (ih (seq + 1))
      | false => simpa [processEvents] using .skipEmit _ (ih (seq + 1))

theorem SaveEmitBlocks.saveBeforeEmit {tr : List Act} (h : SaveEmitBlocks tr) :
    Vibegrapher.saveBeforeEmit tr := by
  induction h with
  | nil => intro n id hn; simp [List.get?] at hn
  | withEmit id h ih =>
    intro n i hn
    match n with
    | 0 => simp [List.get?] at hn
    | 1 =>
      refine ⟨0, Nat.zero_lt_one, ?_⟩
      simp [List.get?] at hn ⊢
      exact hn
    | n + 2 =>
      obtain ⟨m, hm, hget⟩ := ih n i (by simpa [List.get?] using hn)
      exact ⟨m + 2, by omega, by simpa [List.get?] using hget⟩
  | skipEmit id h ih =>
    intro n i hn
    match n with
    | 0 => simp [List.get?] at hn
    | n + 1 =>
      obtain ⟨m, hm, hget⟩ := ih n i (by simpa [List.get?] using hn)
      exact ⟨m + 1, by omega, by simpa [List.get?] using hget⟩

/-- Claim C1 (corrected): in the stream-event loop of `all_agents.py`'s
generation run, each converted message's database write is awaited *before*
its realtime emission is issued — the reverse of the claimed order — so every
emission in a loop trace is preceded by that message's save.  The claimed
emission-first order does hold in `_stream_agent_response` of
`vibecode_service.py`, whose per-agent-response messages are emitted to the
room before the database write is scheduled as a background task. -/
theorem C1_amended :
    (∀ (sessionId : String) (iteration : Nat) (emitOn : Bool)
        (events : List StreamEv) (seq : Nat),
        saveBeforeEmit (processEvents sessionId iteration emitOn events seq).2.1) ∧
    (∀ roomId : String, ∃ i j, i < j ∧
        (stream_agent_response roomId).get? i =
          some (.emitRoom roomId "conversation_message") ∧
        (stream_agent_response roomId).get? j = some .spawnSaveTask) := by
  constructor
  · intro sessionId iteration emitOn events seq
    exact (processEvents_blocks sessionId iteration emitOn events seq).saveBeforeEmit
  · intro roomId
    exact ⟨0, 1, Nat.zero_lt_one, rfl, rfl⟩

/-- Witness for C1's amended ordering at a concrete one-event run. -/
theorem C1_amended_witness :
    saveBeforeEmit (processEvents "s" 0 true [.runItem none] 0).2.1 :=
  C1_amended.1 "s" 0 true [.runItem none] 0

/-! ## Claim C2 -/

/-- The empty-body hunk `@@ -1 +1 @@` applies cleanly to any text (no removals,
no additions), so `validate_patch` on it never takes the `TypeError` path. -/
theorem apply_patch_header_only (code : String) :
    apply_patch code "@@ -1 +1 @@" = some code := by
  have hp : parseHunks (splitLines (pyStrip "@@ -1 +1 @@")) = [(1, 1, [])] := by
    decide
  unfold apply_patch
  rw [hp]
  simp [applyHunks, classifyHunk, applyRemovals, insertAdditions]
  exact joinLines_splitLines code

/-- Claim C2 (code_bug evidence).  First conjunct — the orchestrator the API
uses (`services/vibecode_service.py`): whenever the generator proposes a patch
(here one that applies cleanly, so `validate_patch` duly returns its verdict
dict), reading `validation.valid` as an attribute of that dict raises
`AttributeError` on the very first generation attempt, whatever the syntax
checker says; no 3-attempt exhaustion result is ever produced.  Second
conjunct — the streamed orchestrator (`agents/all_agents.py`): when every
iteration's run yields a rejected evaluation (which is how an always-invalid
patch surfaces, via `submit_patch`'s `approved=False` verdict), there are
exactly 3 generation attempts and the terminal result carries the exhaustion
message in the plain-text `content` field with no diff — the `VibecodeResult`
of that module has no error field at all. -/
theorem C2_code_eval :
    (∀ (checker : String → Option SyntaxErr) (currentCode : String),
        svc_vibecode (fun _ _ => SvcGen.patch "@@ -1 +1 @@" "d" 0) checker true
            currentCode =
          (.error .attributeError, 1)) ∧
    (∀ (run : Nat → String → AgentRun) (sessionId : String) (emitOn : Bool)
        (prompt : String),
        (∀ i p, ∃ reas cm,
            (processEvents sessionId i emitOn (run i p).events 0).2.2 =
              some { approved := false, reasoning := reas, commit_message := cm }) →
        (aa_vibecode run sessionId emitOn prompt).1 =
            { content := some "Maximum iteration limit reached without approval",
              diff_id := none } ∧
          (aa_vibecode run sessionId emitOn prompt).2.1 = 3) := by
  constructor
  · intro checker currentCode
    have h := apply_patch_header_only currentCode
    have hv : ∃ out, validate_patch checker currentCode "@@ -1 +1 @@" = .ok out := by
      unfold validate_patch
      rw [h]
      cases hc : checker currentCode with
      | none =>
        exact ⟨{ valid := true, patched_code := some currentCode }, by simp [hc]⟩
      | some e =>
        exact ⟨{ valid := false,
                 error := some ("SyntaxError: " ++ e.msg ++ " at line " ++
                   toString e.lineno) }, by simp [hc]⟩
    obtain ⟨out, hout⟩ := hv
    simp [svc_vibecode, svcGo, hout]
  · intro run sessionId emitOn prompt h
    obtain ⟨r0, c0, h0⟩ := h 0 prompt
    obtain ⟨r1, c1, h1⟩ := h 1 ("The evaluator rejected your patch. Feedback: " ++
      r0 ++ "\n\nPlease try again.")
    obtain ⟨r2, c2, h2⟩ := h 2 ("The evaluator rejected your patch. Feedback: " ++
      r1 ++ "\n\nPlease try again.")
    unfold aa_vibecode
    simp only [aaGo, h0, h1, h2]
    exact ⟨rfl, rfl⟩

/-- A streamed agent run whose evaluation is always a rejection. -/
def rejectingRun : Nat → String → AgentRun := fun _ _ =>
  { events := [.runItem (some { approved := false, reasoning := "r",
                                commit_message := "" })],
    final_output := none }

/-- Witness for C2 at a concrete checker, code and always-rejecting run. -/
theorem C2_code_eval_witness :
    svc_vibecode (fun _ _ => SvcGen.patch "@@ -1 +1 @@" "d" 0) (fun _ => none) true
        "x" =
      (.error .attributeError, 1) ∧
    ((aa_vibecode rejectingRun "s" true "go").1 =
        { content := some "Maximum iteration limit reached without approval",
          diff_id := none } ∧
      (aa_vibecode rejectingRun "s" true "go").2.1 = 3) :=
  ⟨C2_code_eval.1 (fun _ => none) "x",
   C2_code_eval.2 rejectingRun "s" true "go" (fun _ _ => ⟨"r", "", rfl⟩)⟩

/-! ## Claim C3 -/

/-- Counterexample to claim C3 as stated: `apply` does not fail on any of the
three malformations.  A patch whose only `@@` line is an unparsable hunk header
is applied as zero hunks, returning the original unchanged; a hunk whose line
counts are inconsistent with its body is applied anyway (the counts are parsed
and discarded); a hunk whose `old_start` exceeds the original length is clamped
(its additions are appended at the end).  No `MalformedPatchError` exists
anywhere in the code. -/
theorem C3_counterexample :
    (pyStartswith "@@ bogus @@" "@@" = true ∧
      parseHunkHeader "@@ bogus @@" = none ∧
      apply_patch "a\nb" "@@ bogus @@\n-a\n+c" = some "a\nb") ∧
    apply_patch "a" "@@ -1,5 +1,5 @@\n a" = some "a" ∧
    apply_patch "a" "@@ -99,0 +99,1 @@\n+z" = some "a\nz" := by
  decide

theorem parseHunksGo_none :
    ∀ patchLines : List String,
      (∀ l ∈ patchLines, parseHunkHeader l = none) →
      parseHunksGo patchLines none = [] := by
  intro patchLines
  induction patchLines with
  | nil => intro _; rfl
  | cons line rest ih =>
    intro h
    have hline : parseHunkHeader line = none := h line (List.mem_cons_self line rest)
    have hrest : ∀ l ∈ rest, parseHunkHeader l = none :=
      fun l hl => h l (List.mem_cons_of_mem line hl)
    cases hs : pyStartswith line "@@" <;>
      simp [parseHunksGo, hs, hline, ih hrest]

/-- Claim C3 (corrected): instead of failing, `apply` treats a patch none of
whose lines parses as a hunk header (which covers every unparsable-header
patch) as having zero hunks and returns the original text unchanged;
inconsistent line counts are ignored and an excessive `old_start` is clamped
(see the counterexample); the only failure mode of `apply_patch` is the
internal `IndexError` reported as `None`. -/
theorem C3_amended :
    ∀ original patch : String,
      (∀ l ∈ splitLines (pyStrip patch), parseHunkHeader l = none) →
      apply_patch original patch = some original := by
  intro original patch h
  unfold apply_patch parseHunks
  rw [parseHunksGo_none _ h, applyHunks_nil]
  simp [joinLines_splitLines]

/-- Witness for C3's amended behaviour at the unparsable-header patch. -/
theorem C3_amended_witness :
    apply_patch "a\nb" "@@ bogus @@\n-a\n+c" = some "a\nb" :=
  C3_amended "a\nb" "@@ bogus @@\n-a\n+c" (by decide)

/-! ## Claim C4 -/

/-- Counterexample to claim C4 as stated: on a patch whose single hunk is
*valid* against the original (`@@ -1,1 +1,2 @@` with matching context line
` c` and one added line after it), the two implementations disagree —
`apply_patch` inserts the hunk's added lines at the hunk start regardless of
their position inside the hunk, producing `x\nc`, while the single
left-to-right pass `apply_simple_patch` produces the correct `c\nx`. -/
theorem C4_counterexample :
    apply_patch "c" "@@ -1,1 +1,2 @@\n c\n+x" = some "x\nc" ∧
    apply_simple_patch "c" "@@ -1,1 +1,2 @@\n c\n+x" = some "c\nx" ∧
    apply_patch "c" "@@ -1,1 +1,2 @@\n c\n+x" ≠
      apply_simple_patch "c" "@@ -1,1 +1,2 @@\n c\n+x" := by
  decide

theorem parseHunkHeader_shape {line : String}
    {r : Nat × Option Nat × Nat × Option Nat} (h : parseHunkHeader line = some r) :
    ∃ cs, line.toList = '@' :: '@' :: ' ' :: '-' :: cs := by
  unfold parseHunkHeader at h
  split at h
  · next cs heq => exact ⟨cs, heq⟩
  · exact absurd h (by simp)

/-- A line that parses as a hunk header starts with `@@` and not with
`---`/`+++`. -/
theorem header_prefix_facts {line : String}
    {r : Nat × Option Nat × Nat × Option Nat} (h : parseHunkHeader line = some r) :
    pyStartswith line "@@" = true ∧ pyStartswith line "---" = false ∧
      pyStartswith line "+++" = false := by
  obtain ⟨cs, hcs⟩ := parseHunkHeader_shape h
  refine ⟨?_, ?_, ?_⟩ <;> (unfold pyStartswith; rw [hcs]; rfl)

theorem plus_head {l : String} (h : pyStartswith l "+" = true) :
    ∃ t, l.toList = '+' :: t := by
  unfold pyStartswith at h
  cases hl : l.toList with
  | nil => rw [hl] at h; simp [List.isPrefixOf] at h
  | cons c t =>
    rw [hl] at h
    simp [List.isPrefixOf] at h
    exact ⟨t, by rw [← h]⟩

/-- A line starting with `+` starts with none of `@@`, `-`, ` `. -/
theorem plus_facts {l : String} (h : pyStartswith l "+" = true) :
    pyStartswith l "@@" = false ∧ pyStartswith l "-" = false ∧
      pyStartswith l " " = false := by
  obtain ⟨t, ht⟩ := plus_head h
  refine ⟨?_, ?_, ?_⟩ <;> (unfold pyStartswith; rw [ht]; rfl)

theorem parseHunksGo_collect :
    ∀ (body : List String) (os ns : Nat) (acc : List String),
      (∀ l ∈ body, pyStartswith l "@@" = false) →
      parseHunksGo body (some (os, ns, acc)) = [(os, ns, acc ++ body)] := by
  intro body
  induction body with
  | nil => intro os ns acc _; simp [parseHunksGo]
  | cons l rest ih =>
    intro os ns acc h
    have hl : pyStartswith l "@@" = false := h l (List.mem_cons_self l rest)
    have hrest : ∀ x ∈ rest, pyStartswith x "@@" = false :=
      fun x hx => h x (List.mem_cons_of_mem l hx)
    simp [parseHunksGo, hl, ih os ns (acc ++ [l]) hrest]

/-- A patch of one parsable header followed by non-`@@` lines parses as the
single hunk with exactly those body lines. -/
theorem parseHunks_single {hdr : String} {os ns : Nat} {oc nc : Option Nat}
    (body : List String) (hp : parseHunkHeader hdr = some (os, oc, ns, nc))
    (hb : ∀ l ∈ body, pyStartswith l "@@" = false) :
    parseHunks (hdr :: body) = [(os, ns, body)] := by
  have hat := (header_prefix_facts hp).1
  unfold parseHunks
  simp [parseHunksGo, hat, hp, parseHunksGo_collect body os ns [] hb]

/-- On an additions-only hunk body the classifier finds no removals and the
added texts in order. -/
theorem classifyHunk_all_plus :
    ∀ (body : List String) (ctx : Nat),
      (∀ l ∈ body, pyStartswith l "+" = true) →
      classifyHunk body ctx = ([], body.map pyTail) := by
  intro body
  induction body with
  | nil => intro ctx _; rfl
  | cons l rest ih =>
    intro ctx h
    have hl := h l (List.mem_cons_self l rest)
    obtain ⟨_, hminus, _⟩ := plus_facts hl
    have hrest : ∀ x ∈ rest, pyStartswith x "+" = true :=
      fun x hx => h x (List.mem_cons_of_mem l hx)
    simp [classifyHunk, hminus, hl, ih ctx hrest]

theorem take_insert_succ (l : List α) (a : α) :
    ∀ q : Nat, (l.take q ++ [a] ++ l.drop q).take (q + 1) = l.take q ++ [a] := by
  induction l with
  | nil => intro q; simp
  | cons x xs ih =>
    intro q
    cases q with
    | zero => simp
    | succ q => simpa [List.cons_append, List.take_succ_cons] using ih q

theorem drop_insert_succ (l : List α) (a : α) :
    ∀ q : Nat, (l.take q ++ [a] ++ l.drop q).drop (q + 1) = l.drop q := by
  induction l with
  | nil => intro q; simp
  | cons x xs ih =>
    intro q
    cases q with
    | zero => simp
    | succ q => simpa [List.cons_append, List.drop_succ_cons] using ih q

/-- Sequential insertion at positions `q, q+1, ...` (what `apply_patch` does
with a hunk's additions) splices the added lines in at position `q`. -/
theorem insertAdditions_ofNat :
    ∀ (adds : List String) (q : Nat) (lines : List String),
      insertAdditions (q : Int) adds lines =
        lines.take q ++ adds ++ lines.drop q := by
  intro adds
  induction adds with
  | nil => intro q lines; simp [insertAdditions]
  | cons a rest ih =>
    intro q lines
    have hpy : pyInsert (q : Int) a lines = lines.take q ++ [a] ++ lines.drop q := by
      have hneg : ¬ ((q : Int) < 0) := by omega
      simp [pyInsert, hneg]
    have hcast : (q : Int) + 1 = ((q + 1 : Nat) : Int) := by omega
    rw [show insertAdditions (q : Int) (a :: rest) lines =
          insertAdditions ((q : Int) + 1) rest (pyInsert (q : Int) a lines) from rfl,
        hpy, hcast, ih (q + 1) (lines.take q ++ [a] ++ lines.drop q),
        take_insert_succ, drop_insert_succ]
    simp

theorem advanceTo_ofNat_zero (q len : Nat) :
    advanceTo (q : Int) len 0 = min q len := by
  unfold advanceTo
  split <;> omega

theorem take_min_length (l : List α) (n : Nat) :
    l.take (min n l.length) = l.take n := by
  rcases Nat.le_total n l.length with h | h
  · rw [Nat.min_eq_left h]
  · rw [Nat.min_eq_right h, List.take_length, List.take_of_length_le h]

theorem drop_min_length (l : List α) (n : Nat) :
    l.drop (min n l.length) = l.drop n := by
  rcases Nat.le_total n l.length with h | h
  · rw [Nat.min_eq_left h]
  · rw [Nat.min_eq_right h, List.drop_length, List.drop_eq_nil_of_le h]

/-- Inside a hunk body of additions only, the single pass emits exactly the
added texts and leaves the original cursor where it was. -/
theorem simpleGo_all_plus (lines : List String) :
    ∀ (body : List String) (idx : Nat),
      (∀ l ∈ body, pyStartswith l "+" = true) →
      simpleGo lines body true idx = (body.map pyTail, idx) := by
  intro body
  induction body with
  | nil => intro idx _; rfl
  | cons l rest ih =>
    intro idx h
    have hl := h l (List.mem_cons_self l rest)
    obtain ⟨hat, _, _⟩ := plus_facts hl
    have hrest : ∀ x ∈ rest, pyStartswith x "+" = true :=
      fun x hx => h x (List.mem_cons_of_mem l hx)
    simp [simpleGo, hat, hl, ih idx hrest]

/-- Claim C4 (corrected): the reverse-order hunk application (`apply_patch`)
and the single left-to-right pass (`apply_simple_patch`) do *not* agree on all
valid patches (see the counterexample: `apply_patch` inserts every added line
at the hunk start and, relatedly, mis-indexes removals that follow earlier
removals).  They do agree on every patch consisting of one parsable hunk
header with `old_start ≥ 1` followed only by added lines, where both compute
the original with the added texts spliced in at `old_start - 1`. -/
theorem C4_amended :
    ∀ (original patch hdr : String) (body : List String) (os : Nat)
      (oc : Option Nat) (ns : Nat) (nc : Option Nat),
      splitLines (pyStrip patch) = hdr :: body →
      parseHunkHeader hdr = some (os, oc, ns, nc) →
      1 ≤ os →
      (∀ l ∈ body, pyStartswith l "+" = true) →
      apply_patch original patch = apply_simple_patch original patch := by
  intro original patch hdr body os oc ns nc hsplit hparse hos hplus
  have hb : ∀ l ∈ body, pyStartswith l "@@" = false :=
    fun l hl => (plus_facts (hplus l hl)).1
  have hcast : (os : Int) - 1 = ((os - 1 : Nat) : Int) := by omega
  have hat := (header_prefix_facts hparse).1
  have happ : apply_patch original patch =
      some (joinLines ((splitLines original).take (os - 1) ++ body.map pyTail ++
        (splitLines original).drop (os - 1))) := by
    unfold apply_patch
    rw [hsplit, parseHunks_single body hparse hb]
    simp [applyHunks, classifyHunk_all_plus body 0 hplus, applyRemovals,
      hcast, insertAdditions_ofNat]
  have hsg := simpleGo_all_plus (splitLines original) body
    (min (os - 1) (splitLines original).length) hplus
  have hsimp : apply_simple_patch original patch =
      some (joinLines (((splitLines original).take
          (min (os - 1) (splitLines original).length) ++ body.map pyTail) ++
        (splitLines original).drop
          (min (os - 1) (splitLines original).length))) := by
    unfold apply_simple_patch
    rw [hsplit]
    simp [simpleGo, hat, hparse, hcast, advanceTo_ofNat_zero, hsg]
  rw [happ, hsimp, take_min_length, drop_min_length]

/-- Witness for C4's amended agreement: a patch adding two comment lines
before line 1. -/
theorem C4_amended_witness :
    apply_patch "c" "@@ -1,2 +1,3 @@\n+# a\n+# b" =
      apply_simple_patch "c" "@@ -1,2 +1,3 @@\n+# a\n+# b" :=
  C4_amended "c" "@@ -1,2 +1,3 @@\n+# a\n+# b" "@@ -1,2 +1,3 @@" ["+# a", "+# b"]
    1 (some 2) 1 (some 3) (by decide) (by decide) (by decide) (by decide)

/-- Regression checks for the hunk-header parser against the regex
`@@ -(\d+)(?:,(\d+))? \+(\d+)(?:,(\d+))? @@`: counts are optional, `re.match`
ignores text after the closing `@@`, and a failed optional group or a
non-digit where a count is required fails the whole match. -/
theorem parseHunkHeader_regression :
    parseHunkHeader "@@ -1,2 +1,3 @@" = some (1, some 2, 1, some 3) ∧
    parseHunkHeader "@@ -0,0 +1 @@ trailing" = some (0, some 0, 1, none) ∧
    parseHunkHeader "@@ bogus @@" = none ∧
    parseHunkHeader "@@ -1,x +2 @@" = none := by
  decide

/-- The spec's concrete scenario patch: both implementations add the comment
line before `def hello():`. -/
theorem apply_patch_comment_scenario :
    apply_patch "def hello():\n    return 'lo'"
        "@@ -1,2 +1,3 @@\n+# comment\n def hello():\n     return 'lo'" =
      some "# comment\ndef hello():\n    return 'lo'" := by
  decide

end Vibegrapher
